import Mathlib

/-!
Shallow embedding of the log-forwarding daemon (`src/main.py`) of
syslog2dockerlog: the offset-tracking engine (`LogForwarder.process_source`,
`cleanup_stale_offsets`), the line classifier (`detect_level`,
`normalize_line`, `emit_line`), notification gating
(`NotificationConfig.ntfy_url`), and the heartbeat writer (`write_health`).

Modelling conventions:
- Text is `List Char`; offsets count characters (the Python code reads the
  files as UTF-8 text and the byte/character distinction never matters for
  the properties proved here, which quantify over arbitrary contents).
- `re` character classes are modelled over their ASCII meaning
  (`\d` = ASCII digit, `\s` = ASCII whitespace, `\w` = letter/digit/underscore).
- A compiled inclusion regex (`SourceConfig.regex`) is abstracted as the
  Boolean predicate its `search` method denotes.
- I/O (glob expansion, `os.stat`, `open`/read) is a passed-in filesystem
  value `FS`; fallible operations return `Except FsError`.
-/

namespace SysLog

/-- A file identity: `(st_dev, st_ino)` as produced by `os.stat`. -/
abbrev Key := Nat × Nat

/-- File paths (strings, as returned by `glob.glob`). -/
abbrev Path := String

/-! ### Association-list helpers for the `offsets` / `key_to_path` dicts -/

/-- Dictionary lookup (first binding wins). -/
def lookupA {α : Type} (k : Key) : List (Key × α) → Option α
  | [] => none
  | (k2, v) :: rest => if k2 = k then some v else lookupA k rest

/-- Dictionary update `d[k] = v`: replace the first binding of `k`,
or append a fresh binding at the end. -/
def setA {α : Type} (k : Key) (v : α) : List (Key × α) → List (Key × α)
  | [] => [(k, v)]
  | (k2, v2) :: rest => if k2 = k then (k, v) :: rest else (k2, v2) :: setA k v rest

/-- The keys of a dictionary. -/
def keysA {α : Type} (m : List (Key × α)) : List Key := m.map Prod.fst

/-- Set insertion for the `touched_keys` set. -/
def insertKey (k : Key) (s : List Key) : List Key := if k ∈ s then s else k :: s

/-! ### Splitting a file tail into lines, as Python file iteration does -/

/-- Accumulator-based splitter: `splitAux acc cs` splits `acc.reverse ++ cs`
after every newline character; a final chunk without a terminator is still
yielded (exactly like iterating a Python text file). -/
def splitAux (acc : List Char) : List Char → List (List Char)
  | [] => if acc = [] then [] else [acc.reverse]
  | c :: cs =>
    if c = '\n' then (acc.reverse ++ [c]) :: splitAux [] cs
    else splitAux (c :: acc) cs

/-- The lines yielded by `for line in fh`, newline terminators included;
a trailing unterminated fragment is yielded as the last element. -/
def splitFileLines (cs : List Char) : List (List Char) := splitAux [] cs

/-- Python's `line.rstrip("\n")`: drop all trailing newline characters. -/
def rstripNewline (l : List Char) : List Char :=
  (l.reverse.dropWhile (fun c => c = '\n')).reverse

/-- Total character count of a list of lines. -/
def sumLen (ls : List (List Char)) : Nat := ls.foldr (fun l n => l.length + n) 0

/-! ### Severity classification: `LEVEL_PATTERN` and `detect_level`

`LEVEL_PATTERN = re.compile(r"\b(CRITICAL|ERROR|WARN(?:ING)?|INFO)\b", re.IGNORECASE)`
and `detect_level` runs `LEVEL_PATTERN.search` (leftmost match; at a given
position the alternatives are tried in order, `WARN(?:ING)?` greedily trying
`WARNING` before `WARN`), uppercases group 1 and maps `WARNING` to `WARN`. -/

/-- Characters matched by `\w` of the pattern: letter, digit or underscore (ASCII model). -/
def isWordChar (c : Char) : Bool := c.isAlpha || c.isDigit || c = '_'

/-- Case-insensitively consume the token (given in upper case) from the
front of `cs`; return the rest on success. -/
def matchTokCI : List Char → List Char → Option (List Char)
  | [], rest => some rest
  | _ :: _, [] => none
  | t :: ts, c :: cs => if c.toUpper = t then matchTokCI ts cs else none

/-- Does `tok` match at the head of `cs` with a word boundary after it
(end of input, or a non-word character)? -/
def wholeTokAt (tok : List Char) (cs : List Char) : Bool :=
  match matchTokCI tok cs with
  | none => false
  | some [] => true
  | some (c :: _) => !isWordChar c

/-- The alternatives of `LEVEL_PATTERN`'s group, in the order the regex
engine tries them at a fixed position, paired with `group(1).upper()`. -/
def levelTokens : List (List Char × String) :=
  [(("CRITICAL").toList, "CRITICAL"), (("ERROR").toList, "ERROR"),
   (("WARNING").toList, "WARNING"), (("WARN").toList, "WARN"),
   (("INFO").toList, "INFO")]

/-- The first alternative of `LEVEL_PATTERN` matching at the head of `cs`
(word boundary after included; the boundary before is checked by the caller). -/
def levelAt (cs : List Char) : Option String :=
  (levelTokens.find? (fun p => wholeTokAt p.1 cs)).map (fun p => p.2)

/-- Leftmost-match scan of `LEVEL_PATTERN.search`: `bdry` records whether a
word boundary can occur before the current position (start of string, or the
previous character is a non-word character — every alternative starts with a
letter, so `\b` before the match is exactly that condition). -/
def searchLevel : Bool → List Char → Option String
  | _, [] => none
  | bdry, c :: cs =>
    match (if bdry then levelAt (c :: cs) else none) with
    | some t => some t
    | none => searchLevel (!isWordChar c) cs

/-- The severity of a normalized line (`LogForwarder.detect_level`). -/
def detect_level (line : List Char) : String :=
  match searchLevel true line with
  | none => "INFO"
  | some t => if t = "WARNING" then "WARN" else t

/-! ### Syslog-prefix normalization

`SYSLOG_PREFIX_PATTERN = re.compile(r"^(?P<stamp>[A-Z][a-z]{2}\s+\d{1,2}\s+\d\d:\d\d:\d\d)\s+(?P<host>\S+)\s+(?P<msg>.+)$")`.
`syslogMatch` is the deterministic equivalent of that backtracking regex for
the inputs it is applied to (lines, which never contain a newline character):
`\s` = ASCII whitespace, `\d` = ASCII digit, `.` = any character, `$` = end. -/

/-- Characters matched by `\s` of the pattern (ASCII model). -/
def isSpaceRe (c : Char) : Bool :=
  c = ' ' || c = '\t' || c = '\n' || c = '\r' || c = '\x0b' || c = '\x0c'

/-- Match the body of `SYSLOG_PREFIX_PATTERN` starting after the three
leading month letters: whitespace, 1-2 digits, whitespace, `dd:dd:dd`,
whitespace, a non-whitespace host token, whitespace, and the message.
Returns `(rest of the stamp group, msg)`.

The one backtracking subtlety: when nothing follows the whitespace run after
the host, the greedy `\s+` gives one character back and `(?P<msg>.+)$` takes
the run's final whitespace character as the message (possible only when that
run has length at least 2). -/
def syslogTail (rest : List Char) : Option (List Char × List Char) :=
  let w1 := rest.takeWhile isSpaceRe
  let r1 := rest.dropWhile isSpaceRe
  if w1 = [] then none else
  let ds := r1.takeWhile Char.isDigit
  let r2 := r1.dropWhile Char.isDigit
  if ds.length = 0 || 2 < ds.length then none else
  let w2 := r2.takeWhile isSpaceRe
  let r3 := r2.dropWhile isSpaceRe
  if w2 = [] then none else
  match r3 with
  | h1 :: h2 :: k1 :: m1 :: m2 :: k2 :: s1 :: s2 :: r4 =>
    if h1.isDigit && h2.isDigit && k1 = ':' && m1.isDigit && m2.isDigit
        && k2 = ':' && s1.isDigit && s2.isDigit then
      let stamp := w1 ++ ds ++ w2 ++ [h1, h2, k1, m1, m2, k2, s1, s2]
      let w3 := r4.takeWhile isSpaceRe
      let r5 := r4.dropWhile isSpaceRe
      if w3 = [] then none else
      let host := r5.takeWhile (fun c => !isSpaceRe c)
      let r6 := r5.dropWhile (fun c => !isSpaceRe c)
      if host = [] then none else
      let w4 := r6.takeWhile isSpaceRe
      let r7 := r6.dropWhile isSpaceRe
      if w4 = [] then none else
      if r7 ≠ [] then some (stamp, r7)
      else if 2 ≤ w4.length then some (stamp, [w4.getLastD ' '])
      else none
    else none
  | _ => none

/-- Result of `SYSLOG_PREFIX_PATTERN.match` on a line: on success, the `stamp` and
`msg` groups. -/
def syslogMatch (cs : List Char) : Option (List Char × List Char) :=
  match cs with
  | c0 :: c1 :: c2 :: rest =>
    if ('A' ≤ c0 && c0 ≤ 'Z') && ('a' ≤ c1 && c1 ≤ 'z') && ('a' ≤ c2 && c2 ≤ 'z') then
      (syslogTail rest).map (fun p => (c0 :: c1 :: c2 :: p.1, p.2))
    else none
  | _ => none

/-! ### Configuration records -/

/-- The `SourceConfig` record of `main.py`. The compiled inclusion regex is abstracted
as the predicate its `search` method denotes (`none` when no regex is
configured); `title_prefix`-style display fields live only in the
notification payload, which is not modelled. -/
structure SourceConfig where
  name : String
  pattern : String
  regex : Option (List Char → Bool)
  strip_syslog_hostname : Bool
  notifications_enabled : Bool
  notification_levels : List String

/-- Python string-option truthiness: `None` and the empty string are falsy. -/
def strTruthy : Option String → Bool
  | none => false
  | some s => s.length != 0

/-- Python's `s.rstrip('/')` — drop all trailing slashes. -/
def rstripSlash (s : String) : String :=
  ((s.toList.reverse.dropWhile (fun c => c = '/')).reverse).asString

/-- Python's `s.lstrip('/')` — drop all leading slashes. -/
def lstripSlash (s : String) : String :=
  (s.toList.dropWhile (fun c => c = '/')).asString

/-- The `NotificationConfig` record of `main.py` (the title-formatting display field,
used only to format an HTTP header, is not modelled). -/
structure NotificationConfig where
  ntfy_base_url : Option String
  topic : Option String
  ntfy_url_override : Option String
  auth_token : Option String

/-- The `ntfy_url` property: an explicit override wins when truthy;
otherwise `None` unless both base URL and topic are truthy, in which case
they are joined with a single slash. -/
def NotificationConfig.ntfy_url (n : NotificationConfig) : Option String :=
  if strTruthy n.ntfy_url_override then n.ntfy_url_override
  else
    match n.ntfy_base_url, n.topic with
    | some b, some t =>
      if b.length = 0 || t.length = 0 then none
      else some (rstripSlash b ++ "/" ++ lstripSlash t)
    | _, _ => none

/-! ### The classifier pipeline: `normalize_line` and `emit_line` -/

/-- Line normalization (`LogForwarder.normalize_line`): when syslog-hostname stripping is enabled
and the line matches the syslog prefix shape, drop the hostname token. -/
def normalize_line (src : SourceConfig) (line : List Char) : List Char :=
  if !src.strip_syslog_hostname then line
  else
    match syslogMatch line with
    | none => line
    | some (stamp, msg) => stamp ++ ' ' :: msg

/-- A console-emitted event, with the result of the notification gate of
`emit_line` recorded in `notified`. -/
structure Event where
  source : String
  level : String
  message : List Char
  notified : Bool
deriving DecidableEq, Repr

/-- Line emission (`LogForwarder.emit_line`): drop the line if an inclusion regex is set and
does not match; otherwise normalize, classify, emit to the console, and
dispatch a notification exactly when the source has notifications enabled,
the `ntfy_url` property is truthy, and the level is in the source's
`notification_levels` set. -/
def emit_line (ncfg : NotificationConfig) (src : SourceConfig) (line : List Char) :
    Option Event :=
  let keep := match src.regex with
    | some f => f line
    | none => true
  if keep then
    let normalized := normalize_line src line
    let level := detect_level normalized
    some { source := src.name, level := level, message := normalized,
           notified := src.notifications_enabled && strTruthy ncfg.ntfy_url
                         && src.notification_levels.contains level }
  else none

/-! ### The filesystem interface consumed by one tick -/

/-- Exceptions a per-path iteration of `process_source` catches:
`FileNotFoundError`, `PermissionError`, other `OSError`. -/
inductive FsError where
  | notFound
  | permDenied
  | ioError
deriving DecidableEq, Repr

/-- The fields of `os.stat` the program uses. -/
structure FileStat where
  dev : Nat
  ino : Nat
  size : Nat
deriving DecidableEq, Repr

/-- A snapshot of the filesystem during one tick: `glob` is the sorted
result of `glob.glob` on a pattern; `stat` and `openFile` may fail
independently (the file can disappear or change between the two calls). -/
structure FS where
  glob : String → List Path
  stat : Path → Except FsError FileStat
  openFile : Path → Except FsError (List Char)

/-- The mutable tracker state: the `offsets` and `key_to_path` dicts and the
per-tick `touched_keys` set. -/
structure TrackerState where
  offsets : List (Key × Nat)
  key_to_path : List (Key × Path)
  touched_keys : List Key
deriving DecidableEq, Repr

/-- The output of processing: the resulting state, the (already
newline-stripped) lines handed to `emit_line`, the events actually emitted
(lines surviving the inclusion filter), and the error messages logged. -/
structure TickOut where
  st : TrackerState
  lines : List (List Char)
  events : List Event
  errs : List String
deriving Repr

/-! ### One path of `process_source` (`main.py` lines 213-239) -/

/-- The loop body of `LogForwarder.process_source` for a single globbed
path: stat, record the identity as touched, register unseen identities at
their current size without reading, detect truncation (size < offset resets
the read position to 0), read from the offset to end of file handing every
yielded line to `emit_line`, store `fh.tell()` as the new offset; a
`FileNotFoundError` anywhere is a silent skip, permission and other I/O
errors log one message and leave the dictionaries untouched. -/
def processPath (ncfg : NotificationConfig) (src : SourceConfig) (fs : FS)
    (st : TrackerState) (path : Path) : TickOut :=
  match fs.stat path with
  | .error .notFound => ⟨st, [], [], []⟩
  | .error .permDenied => ⟨st, [], [], ["Permission denied for " ++ path]⟩
  | .error .ioError => ⟨st, [], [], ["Failed reading " ++ path]⟩
  | .ok info =>
    let key : Key := (info.dev, info.ino)
    let st1 : TrackerState := { st with touched_keys := insertKey key st.touched_keys }
    match lookupA key st1.offsets with
    | none =>
      ⟨{ st1 with offsets := setA key info.size st1.offsets,
                  key_to_path := setA key path st1.key_to_path }, [], [], []⟩
    | some stored =>
      let offset := if info.size < stored then 0 else stored
      match fs.openFile path with
      | .error .notFound => ⟨st1, [], [], []⟩
      | .error .permDenied => ⟨st1, [], [], ["Permission denied for " ++ path]⟩
      | .error .ioError => ⟨st1, [], [], ["Failed reading " ++ path]⟩
      | .ok content =>
        let data := content.drop offset
        let lines := (splitFileLines data).map rstripNewline
        ⟨{ st1 with offsets := setA key (offset + data.length) st1.offsets,
                    key_to_path := setA key path st1.key_to_path },
         lines, lines.filterMap (emit_line ncfg src), []⟩

/-- The source loop body (`LogForwarder.process_source`): iterate the loop body over the sorted
glob matches of the source's pattern, threading the state and concatenating
the outputs in order. -/
def process_source (ncfg : NotificationConfig) (fs : FS) (src : SourceConfig)
    (st : TrackerState) : TickOut :=
  (fs.glob src.pattern).foldl
    (fun acc path =>
      let r := processPath ncfg src fs acc.st path
      ⟨r.st, acc.lines ++ r.lines, acc.events ++ r.events, acc.errs ++ r.errs⟩)
    ⟨st, [], [], []⟩

/-- The per-tick source loop of `LogForwarder.run`: process every source in
order. -/
def runSources (ncfg : NotificationConfig) (fs : FS) (srcs : List SourceConfig)
    (st : TrackerState) : TickOut :=
  srcs.foldl
    (fun acc src =>
      let r := process_source ncfg fs src acc.st
      ⟨r.st, acc.lines ++ r.lines, acc.events ++ r.events, acc.errs ++ r.errs⟩)
    ⟨st, [], [], []⟩

/-- The `stale` list computed by `cleanup_stale_offsets`: keys of `offsets`
absent from this tick's `touched_keys`. -/
def staleKeys (st : TrackerState) : List Key :=
  (keysA st.offsets).filter (fun k => decide (k ∉ st.touched_keys))

/-- Pruning (`LogForwarder.cleanup_stale_offsets`): every key of `offsets` absent from
`touched_keys` is removed from both `offsets` and `key_to_path`. -/
def cleanup_stale_offsets (st : TrackerState) : TrackerState :=
  { st with offsets := st.offsets.filter (fun p => decide (p.1 ∉ staleKeys st)),
            key_to_path := st.key_to_path.filter (fun p => decide (p.1 ∉ staleKeys st)) }

/-! ### The heartbeat artifact -/

/-- JSON values appearing in the heartbeat payload. -/
inductive HealthValue where
  | str (s : String)
  | num (n : Nat)
  | strList (l : List String)
deriving DecidableEq, Repr

/-- The heartbeat payload (`LogForwarder.write_health`): the JSON object (as an ordered field list)
written over the health file each tick, given the current unix time. -/
def write_health (update_seconds : Nat) (srcs : List SourceConfig) (now : Nat) :
    List (String × HealthValue) :=
  [("status", HealthValue.str ("ok")),
   ("timestamp", HealthValue.num now),
   ("updatefreq", HealthValue.num update_seconds),
   ("sources", HealthValue.strList (srcs.map SourceConfig.name))]

/-! ### One tick of `LogForwarder.run` (`main.py` lines 155-161) -/

/-- The result of one tick: final state, lines handed to the classifier,
emitted events, logged errors, and the heartbeat payload written. -/
structure TickResult where
  st : TrackerState
  lines : List (List Char)
  events : List Event
  errs : List String
  health : List (String × HealthValue)

/-- One iteration of the polling loop: clear `touched_keys`, process every
source, prune untouched identities, write the heartbeat. -/
def runTick (ncfg : NotificationConfig) (fs : FS) (srcs : List SourceConfig)
    (update_seconds : Nat) (now : Nat) (st : TrackerState) : TickResult :=
  let r := runSources ncfg fs srcs { st with touched_keys := [] }
  ⟨cleanup_stale_offsets r.st, r.lines, r.events, r.errs,
   write_health update_seconds srcs now⟩

/-! ### Reference formulations used by the claims

`detect_level_claim` is modelled from the claim's words ("a case-insensitive
whole-word search for the first occurrence of one of the tokens CRITICAL,
ERROR, WARN, WARNING"); `detect_level_spec` is the same search over the
token list the code actually uses (INFO included). Both express "first
occurrence" directly by scanning character positions from the left. -/

/-- Can a word boundary precede position `i` of `line`? (Start of string,
or the previous character is a non-word character.) -/
def bdryAt (line : List Char) (i : Nat) : Bool :=
  decide (i = 0) || !isWordChar (line.getD (i - 1) ' ')

/-- Whether `tok` occurs in `line` at position `i` as a whole word (case-insensitive,
word boundaries on both sides). -/
def wholeWordAtIdx (tok : List Char) (line : List Char) (i : Nat) : Bool :=
  bdryAt line i && wholeTokAt tok (line.drop i)

/-- The token of `toks` (first by list order) occurring at position `i` of
`line` as a whole word, if any. -/
def levelHitAt (toks : List (List Char × String)) (line : List Char) (i : Nat) :
    Option String :=
  (toks.find? (fun p => wholeWordAtIdx p.1 line i)).map (fun p => p.2)

/-- The token found at the leftmost position of `line` where some token of
`toks` occurs as a whole word. -/
def searchFirst (toks : List (List Char × String)) (line : List Char) : Option String :=
  (List.range line.length).findSome? (levelHitAt toks line)

/-- The classifier the code implements, stated as a declarative leftmost
whole-word search over the five tokens of `LEVEL_PATTERN`. -/
def detect_level_spec (line : List Char) : String :=
  match searchFirst levelTokens line with
  | none => "INFO"
  | some t => if t = "WARNING" then "WARN" else t

/-- Modelled from the claim's words (claim C2 / spec §4.2): a
case-insensitive whole-word search for the first occurrence of one of the
four tokens CRITICAL, ERROR, WARN, WARNING only; WARNING maps to WARN; no
match defaults to INFO. -/
def detect_level_claim (line : List Char) : String :=
  match searchFirst [(("CRITICAL").toList, "CRITICAL"), (("ERROR").toList, "ERROR"),
      (("WARNING").toList, "WARNING"), (("WARN").toList, "WARN")] line with
  | none => "INFO"
  | some t => if t = "WARNING" then "WARN" else t

/-! ## Supporting lemmas -/

theorem sumLen_splitAux (cs : List Char) :
    ∀ acc, sumLen (splitAux acc cs) = acc.length + cs.length := by
  induction cs with
  | nil =>
    intro acc
    by_cases h : acc = []
    · simp [splitAux, h, sumLen]
    · simp [splitAux, h, sumLen]
  | cons c cs ih =>
    intro acc
    by_cases h : c = '\n'
    · simp only [splitAux, if_pos h, sumLen, List.foldr_cons]
      have := ih []
      simp only [sumLen] at this
      simp [this]
      omega
    · simp only [splitAux, if_neg h]
      have := ih (c :: acc)
      simp only [sumLen] at this
      simp only [sumLen, this]
      simp
      omega

/-- Every character read is accounted to exactly one yielded line: the
lengths of the lines of `splitFileLines cs` sum to the length of `cs`. -/
theorem sumLen_splitFileLines (cs : List Char) : sumLen (splitFileLines cs) = cs.length := by
  simpa using sumLen_splitAux cs []

theorem lookupA_setA_self {α : Type} (k : Key) (v : α) (m : List (Key × α)) :
    lookupA k (setA k v m) = some v := by
  induction m with
  | nil => simp [setA, lookupA]
  | cons p rest ih =>
    obtain ⟨k2, v2⟩ := p
    by_cases h : k2 = k
    · simp [setA, h, lookupA]
    · simp [setA, h, lookupA, ih]

theorem lookupA_setA_ne {α : Type} {k' k : Key} (h : k' ≠ k) (v : α) (m : List (Key × α)) :
    lookupA k' (setA k v m) = lookupA k' m := by
  have hne : ¬ k = k' := fun hh => h hh.symm
  induction m with
  | nil => simp [setA, lookupA, hne]
  | cons p rest ih =>
    obtain ⟨k2, v2⟩ := p
    by_cases h2 : k2 = k
    · subst h2
      simp [setA, lookupA, hne]
    · simp [setA, h2, lookupA, ih]

theorem setA_of_lookupA {α : Type} {k : Key} {v : α} {m : List (Key × α)}
    (h : lookupA k m = some v) : setA k v m = m := by
  induction m with
  | nil => simp [lookupA] at h
  | cons p rest ih =>
    obtain ⟨k2, v2⟩ := p
    by_cases h2 : k2 = k
    · simp only [lookupA, if_pos h2, Option.some.injEq] at h
      simp [setA, h2, h]
    · simp only [lookupA, if_neg h2] at h
      simp [setA, h2, ih h]

theorem mem_keysA_setA {α : Type} (k' k : Key) (v : α) (m : List (Key × α)) :
    k' ∈ keysA (setA k v m) ↔ k' = k ∨ k' ∈ keysA m := by
  induction m with
  | nil => simp [setA, keysA]
  | cons p rest ih =>
    obtain ⟨k2, v2⟩ := p
    by_cases h : k2 = k
    · subst h
      simp [setA, keysA]
    · simp only [setA, if_neg h, keysA, List.map_cons, List.mem_cons] at ih ⊢
      rw [ih]
      tauto

theorem mem_keysA_filterKey {α : Type} (q : Key → Bool) (k : Key) (m : List (Key × α)) :
    k ∈ keysA (m.filter (fun p => q p.1)) ↔ k ∈ keysA m ∧ q k := by
  simp only [keysA, List.mem_map, List.mem_filter]
  constructor
  · rintro ⟨p, ⟨hm, hq⟩, rfl⟩
    exact ⟨⟨p, hm, rfl⟩, hq⟩
  · rintro ⟨⟨p, hm, rfl⟩, hq⟩
    exact ⟨p, ⟨hm, hq⟩, rfl⟩

theorem mem_staleKeys (st : TrackerState) (k : Key) :
    k ∈ staleKeys st ↔ k ∈ keysA st.offsets ∧ k ∉ st.touched_keys := by
  simp [staleKeys, List.mem_filter]

theorem mem_keysA_filterNotMem {α : Type} (s : List Key) (k : Key) (m : List (Key × α)) :
    k ∈ keysA (m.filter (fun p => decide (p.1 ∉ s))) ↔ k ∈ keysA m ∧ k ∉ s := by
  have h := mem_keysA_filterKey (fun x => decide (x ∉ s)) k m
  simpa using h

/-- Key-set characterization of the pruning pass on the `offsets` dict. -/
theorem mem_offsets_cleanup (st : TrackerState) (k : Key) :
    k ∈ keysA (cleanup_stale_offsets st).offsets ↔
      k ∈ keysA st.offsets ∧ k ∈ st.touched_keys := by
  unfold cleanup_stale_offsets
  dsimp only
  rw [mem_keysA_filterNotMem]
  simp only [mem_staleKeys]
  by_cases h1 : k ∈ keysA st.offsets <;> by_cases h2 : k ∈ st.touched_keys <;> tauto

/-- Key-set characterization of the pruning pass on the `key_to_path` dict:
only keys stale in `offsets` are removed. -/
theorem mem_k2p_cleanup (st : TrackerState) (k : Key) :
    k ∈ keysA (cleanup_stale_offsets st).key_to_path ↔
      k ∈ keysA st.key_to_path ∧ ¬(k ∈ keysA st.offsets ∧ k ∉ st.touched_keys) := by
  unfold cleanup_stale_offsets
  dsimp only
  rw [mem_keysA_filterNotMem]
  simp only [mem_staleKeys]

/-- When every tracked key was touched, pruning leaves `offsets` unchanged. -/
theorem cleanup_offsets_of_touched (st : TrackerState)
    (h : ∀ k ∈ keysA st.offsets, k ∈ st.touched_keys) :
    (cleanup_stale_offsets st).offsets = st.offsets := by
  unfold cleanup_stale_offsets
  have hstale : staleKeys st = [] := by
    rw [staleKeys, List.filter_eq_nil_iff]
    intro a ha
    simp [h a ha]
  rw [hstale]
  apply List.filter_eq_self.mpr
  intro p _
  simp

/-! ### Branch equations for `processPath` -/

theorem processPath_stat_notFound {ncfg : NotificationConfig} {src : SourceConfig}
    {fs : FS} {st : TrackerState} {path : Path}
    (h : fs.stat path = .error .notFound) :
    processPath ncfg src fs st path = ⟨st, [], [], []⟩ := by
  simp [processPath, h]

theorem processPath_stat_permDenied {ncfg : NotificationConfig} {src : SourceConfig}
    {fs : FS} {st : TrackerState} {path : Path}
    (h : fs.stat path = .error .permDenied) :
    processPath ncfg src fs st path = ⟨st, [], [], ["Permission denied for " ++ path]⟩ := by
  simp [processPath, h]

theorem processPath_stat_ioError {ncfg : NotificationConfig} {src : SourceConfig}
    {fs : FS} {st : TrackerState} {path : Path}
    (h : fs.stat path = .error .ioError) :
    processPath ncfg src fs st path = ⟨st, [], [], ["Failed reading " ++ path]⟩ := by
  simp [processPath, h]

theorem processPath_register {ncfg : NotificationConfig} {src : SourceConfig}
    {fs : FS} {st : TrackerState} {path : Path} {info : FileStat}
    (hstat : fs.stat path = .ok info)
    (hnew : lookupA (info.dev, info.ino) st.offsets = none) :
    processPath ncfg src fs st path =
      ⟨⟨setA (info.dev, info.ino) info.size st.offsets,
        setA (info.dev, info.ino) path st.key_to_path,
        insertKey (info.dev, info.ino) st.touched_keys⟩, [], [], []⟩ := by
  simp [processPath, hstat, hnew]

theorem processPath_open_notFound {ncfg : NotificationConfig} {src : SourceConfig}
    {fs : FS} {st : TrackerState} {path : Path} {info : FileStat} {stored : Nat}
    (hstat : fs.stat path = .ok info)
    (hold : lookupA (info.dev, info.ino) st.offsets = some stored)
    (hopen : fs.openFile path = .error .notFound) :
    processPath ncfg src fs st path =
      ⟨{ st with touched_keys := insertKey (info.dev, info.ino) st.touched_keys },
       [], [], []⟩ := by
  simp [processPath, hstat, hold, hopen]

theorem processPath_open_permDenied {ncfg : NotificationConfig} {src : SourceConfig}
    {fs : FS} {st : TrackerState} {path : Path} {info : FileStat} {stored : Nat}
    (hstat : fs.stat path = .ok info)
    (hold : lookupA (info.dev, info.ino) st.offsets = some stored)
    (hopen : fs.openFile path = .error .permDenied) :
    processPath ncfg src fs st path =
      ⟨{ st with touched_keys := insertKey (info.dev, info.ino) st.touched_keys },
       [], [], ["Permission denied for " ++ path]⟩ := by
  simp [processPath, hstat, hold, hopen]

theorem processPath_open_ioError {ncfg : NotificationConfig} {src : SourceConfig}
    {fs : FS} {st : TrackerState} {path : Path} {info : FileStat} {stored : Nat}
    (hstat : fs.stat path = .ok info)
    (hold : lookupA (info.dev, info.ino) st.offsets = some stored)
    (hopen : fs.openFile path = .error .ioError) :
    processPath ncfg src fs st path =
      ⟨{ st with touched_keys := insertKey (info.dev, info.ino) st.touched_keys },
       [], [], ["Failed reading " ++ path]⟩ := by
  simp [processPath, hstat, hold, hopen]

theorem processPath_read {ncfg : NotificationConfig} {src : SourceConfig}
    {fs : FS} {st : TrackerState} {path : Path} {info : FileStat} {stored : Nat}
    {content : List Char}
    (hstat : fs.stat path = .ok info)
    (hold : lookupA (info.dev, info.ino) st.offsets = some stored)
    (hopen : fs.openFile path = .ok content) :
    processPath ncfg src fs st path =
      ⟨⟨setA (info.dev, info.ino)
          ((if info.size < stored then 0 else stored) +
            (content.drop (if info.size < stored then 0 else stored)).length) st.offsets,
        setA (info.dev, info.ino) path st.key_to_path,
        insertKey (info.dev, info.ino) st.touched_keys⟩,
       (splitFileLines (content.drop (if info.size < stored then 0 else stored))).map
         rstripNewline,
       ((splitFileLines (content.drop (if info.size < stored then 0 else stored))).map
         rstripNewline).filterMap (emit_line ncfg src), []⟩ := by
  simp [processPath, hstat, hold, hopen]

/-! ### The regex scan of `detect_level` equals the declarative leftmost
whole-word search -/

theorem levelHitAt_eq (toks : List (List Char × String)) (line : List Char) (i : Nat) :
    levelHitAt toks line i =
      (if bdryAt line i then
        (toks.find? (fun p => wholeTokAt p.1 (line.drop i))).map (fun p => p.2)
       else none) := by
  by_cases h : bdryAt line i
  · rw [if_pos h]
    unfold levelHitAt
    have hpred : (fun p : List Char × String => wholeWordAtIdx p.1 line i)
        = (fun p : List Char × String => wholeTokAt p.1 (line.drop i)) := by
      funext p
      simp [wholeWordAtIdx, h]
    rw [hpred]
  · rw [if_neg h]
    unfold levelHitAt
    have hfind : toks.find? (fun p => wholeWordAtIdx p.1 line i) = none := by
      rw [List.find?_eq_none]
      intro x _
      simp [wholeWordAtIdx, h]
    rw [hfind]
    rfl

theorem searchLevel_eq_range' (line : List Char) :
    ∀ (n i : Nat), i + n = line.length →
      searchLevel (bdryAt line i) (line.drop i)
        = (List.range' i n).findSome? (levelHitAt levelTokens line) := by
  intro n
  induction n with
  | zero =>
    intro i h
    have hd : line.drop i = [] := List.drop_eq_nil_of_le (by omega)
    simp [hd, searchLevel, List.range']
  | succ n ih =>
    intro i h
    have hlt : i < line.length := by omega
    have hd : line.drop i = line.getD i ' ' :: line.drop (i + 1) := by
      rw [List.getD_eq_getElem line ' ' hlt]
      exact List.drop_eq_getElem_cons hlt
    have hb : bdryAt line (i + 1) = !isWordChar (line.getD i ' ') := by
      simp [bdryAt]
    have hiff : levelHitAt levelTokens line i =
        (if bdryAt line i then levelAt (line.drop i) else none) := by
      rw [levelHitAt_eq]
      rfl
    rw [List.range'_succ]
    rw [List.findSome?_cons]
    cases hh : levelHitAt levelTokens line i with
    | some t =>
      have hsl : (if bdryAt line i then levelAt (line.drop i) else none) = some t := by
        rw [← hiff]; exact hh
      rw [hd] at hsl
      rw [hd]
      simp only [searchLevel, hsl, hh]
    | none =>
      have hsl : (if bdryAt line i then levelAt (line.drop i) else none) = none := by
        rw [← hiff]; exact hh
      rw [hd] at hsl
      rw [hd]
      simp only [searchLevel, hsl, hh]
      rw [← hb]
      exact ih (i + 1) (by omega)

/-- The incremental scan of `detect_level` computes the declarative leftmost
whole-word search over the five tokens of `LEVEL_PATTERN`. -/
theorem detect_level_eq_spec (line : List Char) : detect_level line = detect_level_spec line := by
  unfold detect_level detect_level_spec searchFirst
  have h0 : bdryAt line 0 = true := by simp [bdryAt]
  have hmain := searchLevel_eq_range' line line.length 0 (by omega)
  rw [List.drop_zero, h0] at hmain
  rw [List.range_eq_range']
  rw [hmain]

/-! ## Concrete fixtures for counterexamples and witnesses -/

/-- A notification configuration with everything unset. -/
def ncfgOff : NotificationConfig := ⟨none, none, none, none⟩

/-- A plain source: no inclusion regex, no syslog stripping, notifications
disabled. -/
def srcPlain : SourceConfig := ⟨"s", "p", none, false, false, []⟩

/-- One file `f` of identity `(1, 2)`, size 5, content `hello` with no
trailing newline. -/
def fsHello : FS :=
  ⟨fun pat => if pat = "p" then ["f"] else [],
   fun path => if path = "f" then .ok ⟨1, 2, 5⟩ else .error .notFound,
   fun path => if path = "f" then .ok (("hello").toList) else .error .notFound⟩

/-- Identity `(1, 2)` tracked at offset 0. -/
def stHello : TrackerState := ⟨[((1, 2), 0)], [((1, 2), "f")], []⟩

/-- One file `f` of identity `(1, 2)` that shrank to size 2 (content `ab`). -/
def fsTrunc : FS :=
  ⟨fun pat => if pat = "p" then ["f"] else [],
   fun path => if path = "f" then .ok ⟨1, 2, 2⟩ else .error .notFound,
   fun path => if path = "f" then .ok (("ab").toList) else .error .notFound⟩

/-- Identity `(1, 2)` tracked at offset 10 (greater than the current size 2). -/
def stTrunc : TrackerState := ⟨[((1, 2), 10)], [((1, 2), "f")], []⟩

/-- An empty tracker state (nothing tracked yet). -/
def stEmpty : TrackerState := ⟨[], [], []⟩

/-- One file `f` that stats fine (size 7) but whose open fails with a
permission error. -/
def fsPerm : FS :=
  ⟨fun pat => if pat = "p" then ["f"] else [],
   fun path => if path = "f" then .ok ⟨1, 2, 7⟩ else .error .notFound,
   fun _ => .error .permDenied⟩

/-- Identity `(1, 2)` tracked at offset 3. -/
def stPerm : TrackerState := ⟨[((1, 2), 3)], [((1, 2), "f")], []⟩

/-! ## Claims -/

/-- C1, counterexample. The claim says a trailing line without a terminator
is not handed to the classifier and its bytes are excluded from the new
offset. On a tracked identity at offset 0 over the five-character
unterminated content `hello` (size 5 ≥ offset 0), the claim therefore
predicts no line handed to the classifier this tick and a new offset of
0 + 0 = 0. The code instead hands the fragment `hello` to the classifier
and stores offset 5: `for line in fh` yields the unterminated tail and
`fh.tell()` is taken after reading to end of file. -/
theorem claim_C1_counterexample :
    (processPath ncfgOff srcPlain fsHello stHello ("f")).lines = [("hello").toList] ∧
    (processPath ncfgOff srcPlain fsHello stHello ("f")).lines ≠ [] ∧
    lookupA (1, 2) (processPath ncfgOff srcPlain fsHello stHello ("f")).st.offsets = some 5 ∧
    lookupA (1, 2) (processPath ncfgOff srcPlain fsHello stHello ("f")).st.offsets ≠ some 0 := by
  decide

/-- C1, amended: for a tracked identity whose current size is at least the
stored offset, one tick's read consumes every character from the stored
offset to end of file — a trailing line without a terminator is handed to
the classifier like any other line — and the new stored offset equals the
old offset plus the bytes of all consumed lines, the trailing fragment
included. -/
theorem claim_C1_amended (ncfg : NotificationConfig) (src : SourceConfig) (fs : FS)
    (st : TrackerState) (path : Path) (info : FileStat) (stored : Nat) (content : List Char)
    (hstat : fs.stat path = .ok info)
    (hold : lookupA (info.dev, info.ino) st.offsets = some stored)
    (hge : ¬ info.size < stored)
    (hopen : fs.openFile path = .ok content) :
    (processPath ncfg src fs st path).lines
        = (splitFileLines (content.drop stored)).map rstripNewline ∧
    lookupA (info.dev, info.ino) (processPath ncfg src fs st path).st.offsets
        = some (stored + sumLen (splitFileLines (content.drop stored))) := by
  rw [processPath_read hstat hold hopen]
  refine ⟨by simp [if_neg hge], ?_⟩
  simp only [if_neg hge]
  rw [sumLen_splitFileLines]
  exact lookupA_setA_self _ _ _

/-- Witness for C1 (amended) at the `hello` fixture. -/
theorem claim_C1_amended_witness :
    (processPath ncfgOff srcPlain fsHello stHello ("f")).lines
        = (splitFileLines ((("hello").toList).drop 0)).map rstripNewline ∧
    lookupA (1, 2) (processPath ncfgOff srcPlain fsHello stHello ("f")).st.offsets
        = some (0 + sumLen (splitFileLines ((("hello").toList).drop 0))) :=
  claim_C1_amended ncfgOff srcPlain fsHello stHello ("f") ⟨1, 2, 5⟩ 0 (("hello").toList)
    rfl (by decide) (by decide) rfl

/-- C2, counterexample. The claim determines severity by the first
occurrence of one of the four tokens CRITICAL, ERROR, WARN, WARNING
(`detect_level_claim`), which on `INFO ERROR` yields ERROR; the code's
`LEVEL_PATTERN` also contains the token INFO, so `detect_level` returns
INFO for that line. -/
theorem claim_C2_counterexample :
    detect_level (("INFO ERROR").toList) = "INFO" ∧
    detect_level_claim (("INFO ERROR").toList) = "ERROR" ∧
    detect_level (("INFO ERROR").toList) ≠ detect_level_claim (("INFO ERROR").toList) := by
  decide

/-- C2, amended: the assigned severity is determined by a case-insensitive
whole-word search for the first occurrence of one of the five tokens
CRITICAL, ERROR, WARN, WARNING, INFO (WARNING mapping to WARN); a line
containing none of these five tokens is assigned INFO. -/
theorem claim_C2_amended (line : List Char) : detect_level line = detect_level_spec line :=
  detect_level_eq_spec line

/-- C3: on a tracked identity whose current size is strictly less than the
stored offset, the tick resets the read position to 0 and re-reads the whole
current content once — every current line is handed to the classifier
exactly once (in order), and the offset afterwards is exactly the number of
characters consumed from position 0. -/
theorem claim_C3_truncation_reread (ncfg : NotificationConfig) (src : SourceConfig)
    (fs : FS) (st : TrackerState) (path : Path) (info : FileStat) (stored : Nat)
    (content : List Char)
    (hstat : fs.stat path = .ok info)
    (hold : lookupA (info.dev, info.ino) st.offsets = some stored)
    (hlt : info.size < stored)
    (hopen : fs.openFile path = .ok content) :
    (processPath ncfg src fs st path).lines
        = (splitFileLines content).map rstripNewline ∧
    lookupA (info.dev, info.ino) (processPath ncfg src fs st path).st.offsets
        = some content.length := by
  rw [processPath_read hstat hold hopen]
  refine ⟨by simp [if_pos hlt], ?_⟩
  simp only [if_pos hlt, List.drop_zero, Nat.zero_add]
  exact lookupA_setA_self _ _ _

/-- Witness for C3 at the truncation fixture (offset 10, new size 2). -/
theorem claim_C3_witness :
    (processPath ncfgOff srcPlain fsTrunc stTrunc ("f")).lines
        = (splitFileLines (("ab").toList)).map rstripNewline ∧
    lookupA (1, 2) (processPath ncfgOff srcPlain fsTrunc stTrunc ("f")).st.offsets
        = some (("ab").toList).length :=
  claim_C3_truncation_reread ncfgOff srcPlain fsTrunc stTrunc ("f") ⟨1, 2, 2⟩ 10
    (("ab").toList) rfl (by decide) (by decide) rfl

/-- C4: a file identity not currently tracked is registered with stored
offset equal to its size at discovery, its path is recorded, and nothing is
handed to the classifier or emitted for it in that encounter — content
present before discovery is never replayed. -/
theorem claim_C4_discovery (ncfg : NotificationConfig) (src : SourceConfig)
    (fs : FS) (st : TrackerState) (path : Path) (info : FileStat)
    (hstat : fs.stat path = .ok info)
    (hnew : lookupA (info.dev, info.ino) st.offsets = none) :
    (processPath ncfg src fs st path).lines = [] ∧
    (processPath ncfg src fs st path).events = [] ∧
    lookupA (info.dev, info.ino) (processPath ncfg src fs st path).st.offsets
        = some info.size ∧
    lookupA (info.dev, info.ino) (processPath ncfg src fs st path).st.key_to_path
        = some path := by
  rw [processPath_register hstat hnew]
  exact ⟨rfl, rfl, lookupA_setA_self _ _ _, lookupA_setA_self _ _ _⟩

/-- Witness for C4: discovering the `hello` file from an empty tracker. -/
theorem claim_C4_witness :
    (processPath ncfgOff srcPlain fsHello stEmpty ("f")).lines = [] ∧
    (processPath ncfgOff srcPlain fsHello stEmpty ("f")).events = [] ∧
    lookupA (1, 2) (processPath ncfgOff srcPlain fsHello stEmpty ("f")).st.offsets
        = some 5 ∧
    lookupA (1, 2) (processPath ncfgOff srcPlain fsHello stEmpty ("f")).st.key_to_path
        = some ("f") :=
  claim_C4_discovery ncfgOff srcPlain fsHello stEmpty ("f") ⟨1, 2, 5⟩
    rfl (by decide)

/-- Truthiness of the `ntfy_url` property coincides with it being set: the
property never returns an empty string (an override is returned only when
non-empty, and the joined URL contains a slash). -/
theorem ntfy_url_truthy_iff (n : NotificationConfig) :
    strTruthy n.ntfy_url = n.ntfy_url.isSome := by
  unfold NotificationConfig.ntfy_url
  by_cases h : strTruthy n.ntfy_url_override
  · rw [if_pos h]
    cases ho : n.ntfy_url_override with
    | none => rw [ho] at h; simp [strTruthy] at h
    | some s =>
      rw [ho] at h
      simp [strTruthy] at h ⊢
      omega
  · rw [if_neg h]
    cases hb : n.ntfy_base_url with
    | none => simp [strTruthy]
    | some b =>
      cases ht : n.topic with
      | none => simp [strTruthy]
      | some t =>
        by_cases hz : b.length = 0 || t.length = 0
        · simp [hz, strTruthy]
        · simp only [hz, if_false, Bool.false_eq_true]
          simp [strTruthy, String.length_append]
          intro _ hx
          exact absurd hx (by decide)

/-- C5: identities surviving a tick are exactly the ones that were tracked at
pruning time and were touched by some globbed path during the tick: an
untouched previously-tracked identity is pruned, a touched one is retained. -/
theorem claim_C5_prune (ncfg : NotificationConfig) (fs : FS) (srcs : List SourceConfig)
    (u now : Nat) (st : TrackerState) (k : Key) :
    (k ∈ keysA (runTick ncfg fs srcs u now st).st.offsets ↔
      (k ∈ keysA (runSources ncfg fs srcs { st with touched_keys := [] }).st.offsets ∧
       k ∈ (runTick ncfg fs srcs u now st).st.touched_keys)) := by
  unfold runTick
  exact mem_offsets_cleanup _ k

/-- The normal form of a successfully emitted event. -/
theorem emit_line_some {ncfg : NotificationConfig} {src : SourceConfig}
    {line : List Char} {ev : Event} (h : emit_line ncfg src line = some ev) :
    ev = { source := src.name, level := detect_level (normalize_line src line),
           message := normalize_line src line,
           notified := src.notifications_enabled && strTruthy ncfg.ntfy_url
             && src.notification_levels.contains (detect_level (normalize_line src line)) } := by
  unfold emit_line at h
  dsimp only at h
  split at h
  · injection h with h2
    exact h2.symm
  · simp at h

/-- C6: an emitted event is dispatched to the webhook precisely when the
owning source has notifications enabled, the `ntfy_url` property resolves to
an endpoint, and the event severity is in the source trigger set; if any of
the three fails, `notified` is simply false (no error path exists). -/
theorem claim_C6_notification_gate (ncfg : NotificationConfig) (src : SourceConfig)
    (line : List Char) (ev : Event) (h : emit_line ncfg src line = some ev) :
    (ev.notified = true ↔
      (src.notifications_enabled = true ∧ (NotificationConfig.ntfy_url ncfg).isSome = true ∧
       ev.level ∈ src.notification_levels)) := by
  have hev := emit_line_some h
  subst hev
  dsimp only
  rw [ntfy_url_truthy_iff]
  have hc : (src.notification_levels.contains (detect_level (normalize_line src line)) = true)
      ↔ detect_level (normalize_line src line) ∈ src.notification_levels := by
    simp
  simp only [Bool.and_eq_true]
  rw [hc]
  tauto

/-- A notification configuration with base URL and topic set. -/
def ncfgOn : NotificationConfig := ⟨some ("https://ntfy.example"), some ("alerts"), none, none⟩

/-- A source with notifications enabled for ERROR and CRITICAL. -/
def srcNotify : SourceConfig := ⟨"s", "p", none, false, true, [("ERROR"), ("CRITICAL")]⟩

/-- Witness for C6: an ERROR line under an enabled source and configured
endpoint is dispatched. -/
theorem claim_C6_witness :
    ((⟨"s", "ERROR", ("boom ERROR").toList, true⟩ : Event).notified = true ↔
      (srcNotify.notifications_enabled = true ∧
       (NotificationConfig.ntfy_url ncfgOn).isSome = true ∧
       (⟨"s", "ERROR", ("boom ERROR").toList, true⟩ : Event).level
          ∈ srcNotify.notification_levels)) :=
  claim_C6_notification_gate ncfgOn srcNotify (("boom ERROR").toList)
    ⟨"s", "ERROR", ("boom ERROR").toList, true⟩ (by decide)

/-- C9, counterexample. The heartbeat object's field names in the code are
`status`, `timestamp`, `updatefreq` and `sources`, not the claimed
`update_interval_seconds` and `source_names`. -/
theorem claim_C9_counterexample :
    (write_health 5 [srcPlain] 100).map Prod.fst
        = [("status"), ("timestamp"), ("updatefreq"), ("sources")] ∧
    (write_health 5 [srcPlain] 100).map Prod.fst
        ≠ [("status"), ("timestamp"), ("update_interval_seconds"), ("source_names")] := by
  decide

/-- C9, amended: every tick overwrites the heartbeat artifact with a JSON
object whose fields are exactly `status` (the string `ok`), `timestamp`
(unix seconds), `updatefreq` (the update interval in seconds), and `sources`
(the list of configured source names). -/
theorem claim_C9_amended (ncfg : NotificationConfig) (fs : FS) (srcs : List SourceConfig)
    (u now : Nat) (st : TrackerState) :
    (runTick ncfg fs srcs u now st).health
      = [(("status"), HealthValue.str ("ok")), (("timestamp"), HealthValue.num now),
         (("updatefreq"), HealthValue.num u),
         (("sources"), HealthValue.strList (srcs.map SourceConfig.name))] := rfl

theorem mem_insertKey_self (k : Key) (s : List Key) : k ∈ insertKey k s := by
  unfold insertKey
  split
  · assumption
  · exact List.mem_cons_self _ _

theorem mem_insertKey_of_mem {x : Key} (k : Key) {s : List Key} (h : x ∈ s) :
    x ∈ insertKey k s := by
  unfold insertKey
  split
  · exact h
  · exact List.mem_cons_of_mem _ h

/-! ### Recursive forms of the per-tick loops, for induction -/

/-- Recursive form of the path loop of `process_source`. -/
def processPaths (ncfg : NotificationConfig) (src : SourceConfig) (fs : FS) :
    TrackerState → List Path → TickOut
  | st, [] => ⟨st, [], [], []⟩
  | st, path :: rest =>
    let r := processPath ncfg src fs st path
    let r2 := processPaths ncfg src fs r.st rest
    ⟨r2.st, r.lines ++ r2.lines, r.events ++ r2.events, r.errs ++ r2.errs⟩

theorem foldl_processPath_eq (ncfg : NotificationConfig) (src : SourceConfig) (fs : FS)
    (paths : List Path) :
    ∀ acc : TickOut,
      paths.foldl (fun acc path =>
          let r := processPath ncfg src fs acc.st path
          (⟨r.st, acc.lines ++ r.lines, acc.events ++ r.events, acc.errs ++ r.errs⟩ :
            TickOut)) acc
        = ⟨(processPaths ncfg src fs acc.st paths).st,
           acc.lines ++ (processPaths ncfg src fs acc.st paths).lines,
           acc.events ++ (processPaths ncfg src fs acc.st paths).events,
           acc.errs ++ (processPaths ncfg src fs acc.st paths).errs⟩ := by
  induction paths with
  | nil =>
    intro acc
    simp [processPaths]
  | cons path rest ih =>
    intro acc
    rw [List.foldl_cons, ih]
    simp [processPaths, List.append_assoc]

theorem process_source_eq (ncfg : NotificationConfig) (fs : FS) (src : SourceConfig)
    (st : TrackerState) :
    process_source ncfg fs src st = processPaths ncfg src fs st (fs.glob src.pattern) := by
  unfold process_source
  rw [foldl_processPath_eq]
  simp

/-- Recursive form of the source loop of `runSources`. -/
def processSrcs (ncfg : NotificationConfig) (fs : FS) :
    TrackerState → List SourceConfig → TickOut
  | st, [] => ⟨st, [], [], []⟩
  | st, src :: rest =>
    let r := process_source ncfg fs src st
    let r2 := processSrcs ncfg fs r.st rest
    ⟨r2.st, r.lines ++ r2.lines, r.events ++ r2.events, r.errs ++ r2.errs⟩

theorem foldl_processSource_eq (ncfg : NotificationConfig) (fs : FS)
    (srcs : List SourceConfig) :
    ∀ acc : TickOut,
      srcs.foldl (fun acc src =>
          let r := process_source ncfg fs src acc.st
          (⟨r.st, acc.lines ++ r.lines, acc.events ++ r.events, acc.errs ++ r.errs⟩ :
            TickOut)) acc
        = ⟨(processSrcs ncfg fs acc.st srcs).st,
           acc.lines ++ (processSrcs ncfg fs acc.st srcs).lines,
           acc.events ++ (processSrcs ncfg fs acc.st srcs).events,
           acc.errs ++ (processSrcs ncfg fs acc.st srcs).errs⟩ := by
  induction srcs with
  | nil =>
    intro acc
    simp [processSrcs]
  | cons src rest ih =>
    intro acc
    rw [List.foldl_cons, ih]
    simp [processSrcs, List.append_assoc]

theorem runSources_eq (ncfg : NotificationConfig) (fs : FS) (srcs : List SourceConfig)
    (st : TrackerState) :
    runSources ncfg fs srcs st = processSrcs ncfg fs st srcs := by
  unfold runSources
  rw [foldl_processSource_eq]
  simp

/-! ### The offsets / key_to_path key-set invariant (claim C10) -/

/-- The two dictionaries track exactly the same identities. -/
def SameKeys (st : TrackerState) : Prop :=
  ∀ k : Key, k ∈ keysA st.offsets ↔ k ∈ keysA st.key_to_path

theorem processPath_sameKeys (ncfg : NotificationConfig) (src : SourceConfig) (fs : FS)
    (st : TrackerState) (path : Path) (h : SameKeys st) :
    SameKeys (processPath ncfg src fs st path).st := by
  cases hstat : fs.stat path with
  | error e =>
    cases e with
    | notFound => rw [processPath_stat_notFound hstat]; exact h
    | permDenied => rw [processPath_stat_permDenied hstat]; exact h
    | ioError => rw [processPath_stat_ioError hstat]; exact h
  | ok info =>
    cases hold : lookupA (info.dev, info.ino) st.offsets with
    | none =>
      rw [processPath_register hstat hold]
      intro k
      dsimp only
      rw [mem_keysA_setA, mem_keysA_setA]
      have hk := h k
      tauto
    | some stored =>
      cases hopen : fs.openFile path with
      | error e =>
        cases e with
        | notFound => rw [processPath_open_notFound hstat hold hopen]; exact h
        | permDenied => rw [processPath_open_permDenied hstat hold hopen]; exact h
        | ioError => rw [processPath_open_ioError hstat hold hopen]; exact h
      | ok content =>
        rw [processPath_read hstat hold hopen]
        intro k
        dsimp only
        rw [mem_keysA_setA, mem_keysA_setA]
        have hk := h k
        tauto

theorem processPaths_sameKeys (ncfg : NotificationConfig) (src : SourceConfig) (fs : FS)
    (paths : List Path) :
    ∀ st : TrackerState, SameKeys st → SameKeys (processPaths ncfg src fs st paths).st := by
  induction paths with
  | nil =>
    intro st h
    exact h
  | cons path rest ih =>
    intro st h
    exact ih _ (processPath_sameKeys ncfg src fs st path h)

theorem processSrcs_sameKeys (ncfg : NotificationConfig) (fs : FS)
    (srcs : List SourceConfig) :
    ∀ st : TrackerState, SameKeys st → SameKeys (processSrcs ncfg fs st srcs).st := by
  induction srcs with
  | nil =>
    intro st h
    exact h
  | cons src rest ih =>
    intro st h
    have h1 : SameKeys (process_source ncfg fs src st).st := by
      rw [process_source_eq]
      exact processPaths_sameKeys ncfg src fs _ st h
    exact ih _ h1

theorem cleanup_sameKeys (st : TrackerState) (h : SameKeys st) :
    SameKeys (cleanup_stale_offsets st) := by
  intro x
  rw [mem_offsets_cleanup, mem_k2p_cleanup]
  have hx := h x
  by_cases h1 : x ∈ keysA st.offsets <;> by_cases h2 : x ∈ st.touched_keys <;> tauto

/-- C10: registering inserts into both dictionaries, a successful read
updates both, and pruning removes stale keys from both, so a state in which
`offsets` and `key_to_path` have the same key set still has that property at
the next tick boundary. -/
theorem claim_C10_same_key_sets (ncfg : NotificationConfig) (fs : FS)
    (srcs : List SourceConfig) (u now : Nat) (st : TrackerState) (k : Key)
    (h : ∀ x : Key, x ∈ keysA st.offsets ↔ x ∈ keysA st.key_to_path) :
    (k ∈ keysA (runTick ncfg fs srcs u now st).st.offsets ↔
     k ∈ keysA (runTick ncfg fs srcs u now st).st.key_to_path) := by
  have h0 : SameKeys ({ st with touched_keys := ([] : List Key) }) := h
  have h1 : SameKeys (runSources ncfg fs srcs { st with touched_keys := [] }).st := by
    rw [runSources_eq]
    exact processSrcs_sameKeys ncfg fs srcs _ h0
  unfold runTick
  exact cleanup_sameKeys _ h1 k

/-- Witness for C10 on the `hello` fixture. -/
theorem claim_C10_witness :
    (((1, 2) : Key) ∈ keysA (runTick ncfgOff fsHello [srcPlain] 5 100 stHello).st.offsets ↔
     ((1, 2) : Key) ∈ keysA (runTick ncfgOff fsHello [srcPlain] 5 100 stHello).st.key_to_path) :=
  claim_C10_same_key_sets ncfgOff fsHello [srcPlain] 5 100 stHello (1, 2)
    (fun _ => Iff.rfl)

/-! ### Per-path error handling and its tick-level consequences (claim C8) -/

/-- One file `f` whose stat itself fails with a permission error. -/
def fsStatPerm : FS :=
  ⟨fun pat => if pat = "p" then ["f"] else [],
   fun _ => .error .permDenied,
   fun _ => .error .permDenied⟩

theorem processPath_stat_err_state {ncfg : NotificationConfig} {src : SourceConfig}
    {fs : FS} {st : TrackerState} {path : Path}
    (h : fs.stat path = .error .permDenied ∨ fs.stat path = .error .ioError) :
    (processPath ncfg src fs st path).st = st := by
  rcases h with h | h
  · rw [processPath_stat_permDenied h]
  · rw [processPath_stat_ioError h]

theorem processPaths_stat_err (ncfg : NotificationConfig) (src : SourceConfig) (fs : FS)
    (paths : List Path) :
    ∀ st : TrackerState,
      (∀ p ∈ paths, fs.stat p = .error .permDenied ∨ fs.stat p = .error .ioError) →
      (processPaths ncfg src fs st paths).st = st := by
  induction paths with
  | nil =>
    intro st _
    rfl
  | cons p rest ih =>
    intro st h
    simp only [processPaths]
    rw [processPath_stat_err_state (h p (List.mem_cons_self _ _))]
    exact ih st (fun q hq => h q (List.mem_cons_of_mem _ hq))

theorem processSrcs_stat_err (ncfg : NotificationConfig) (fs : FS)
    (srcs : List SourceConfig) :
    ∀ st : TrackerState,
      (∀ s ∈ srcs, ∀ p ∈ fs.glob s.pattern,
        fs.stat p = .error .permDenied ∨ fs.stat p = .error .ioError) →
      (processSrcs ncfg fs st srcs).st = st := by
  induction srcs with
  | nil =>
    intro st _
    rfl
  | cons s rest ih =>
    intro st h
    simp only [processSrcs]
    have h1 : (process_source ncfg fs s st).st = st := by
      rw [process_source_eq]
      exact processPaths_stat_err ncfg s fs _ st (h s (List.mem_cons_self _ _))
    rw [h1]
    exact ih st (fun q hq => h q (List.mem_cons_of_mem _ hq))

/-- When nothing was touched, pruning discards every stored offset. -/
theorem cleanup_untouched_empty (st : TrackerState) (h : st.touched_keys = []) :
    (cleanup_stale_offsets st).offsets = [] := by
  unfold cleanup_stale_offsets
  dsimp only
  rw [List.filter_eq_nil_iff]
  intro p hp
  have hmem : p.1 ∈ staleKeys st := by
    rw [mem_staleKeys, h]
    exact ⟨List.mem_map_of_mem _ hp, List.not_mem_nil _⟩
  simp [hmem]

/-- C8, counterexample. The claim says a permission or other I/O error on a
path leaves the identity's stored offset unchanged so that the read is
retried from the same position next tick. When the error happens at stat
(main.py line 215, e.g. an unsearchable parent directory), the key is never
added to `touched_keys` (line 217 is not reached), so at the end of that
same tick `cleanup_stale_offsets` prunes the stored offset: over a
filesystem whose stat always fails with a permission error, a full tick on
an identity tracked at offset 3 logs the error but leaves the identity with
no stored offset at all — the next tick re-baselines instead of retrying
from position 3. -/
theorem claim_C8_counterexample :
    (runTick ncfgOff fsStatPerm [srcPlain] 5 100 stPerm).errs ≠ [] ∧
    lookupA (1, 2) stPerm.offsets = some 3 ∧
    lookupA (1, 2) (runTick ncfgOff fsStatPerm [srcPlain] 5 100 stPerm).st.offsets = none ∧
    lookupA (1, 2) (runTick ncfgOff fsStatPerm [srcPlain] 5 100 stPerm).st.offsets
      ≠ some 3 := by
  decide

/-- C8, amended: per-path error handling. A `FileNotFoundError` at stat
skips the path silently (state untouched, nothing logged); a permission or
other I/O error at stat logs an error and leaves the state — offsets
included — untouched within the pass, but the identity is then not marked
touched, so when every matched path fails that way the tick's pruning
discards every stored offset and the next tick re-baselines rather than
retrying; on a tracked identity, a `FileNotFoundError` between stat and
open is a silent skip, and a permission or other I/O error at open logs an
error while leaving every stored offset unchanged — there the identity was
already marked touched, so its offset survives this tick's pruning and the
read is retried from the same position next tick. -/
theorem claim_C8_errors (ncfg : NotificationConfig) (src : SourceConfig) (fs : FS)
    (st : TrackerState) (path : Path) (stored : Nat) (srcs : List SourceConfig)
    (u now : Nat) :
    (fs.stat path = .error .notFound →
      processPath ncfg src fs st path = ⟨st, [], [], []⟩) ∧
    ((fs.stat path = .error .permDenied ∨ fs.stat path = .error .ioError) →
      ((processPath ncfg src fs st path).st = st ∧
       (processPath ncfg src fs st path).events = [] ∧
       (processPath ncfg src fs st path).errs ≠ [])) ∧
    (∀ info : FileStat, fs.stat path = .ok info →
      lookupA (info.dev, info.ino) st.offsets = some stored →
      fs.openFile path = .error .notFound →
      ((processPath ncfg src fs st path).st.offsets = st.offsets ∧
       (processPath ncfg src fs st path).events = [] ∧
       (processPath ncfg src fs st path).errs = [] ∧
       (info.dev, info.ino) ∈ (processPath ncfg src fs st path).st.touched_keys)) ∧
    (∀ info : FileStat, fs.stat path = .ok info →
      lookupA (info.dev, info.ino) st.offsets = some stored →
      (fs.openFile path = .error .permDenied ∨ fs.openFile path = .error .ioError) →
      ((processPath ncfg src fs st path).st.offsets = st.offsets ∧
       (processPath ncfg src fs st path).events = [] ∧
       (processPath ncfg src fs st path).errs ≠ [] ∧
       (info.dev, info.ino) ∈ (processPath ncfg src fs st path).st.touched_keys)) ∧
    ((∀ s ∈ srcs, ∀ p ∈ fs.glob s.pattern,
        fs.stat p = .error .permDenied ∨ fs.stat p = .error .ioError) →
      (runTick ncfg fs srcs u now st).st.offsets = []) := by
  refine ⟨?_, ?_, ?_, ?_, ?_⟩
  · intro h
    exact processPath_stat_notFound h
  · rintro (h | h)
    · rw [processPath_stat_permDenied h]
      exact ⟨rfl, rfl, by simp⟩
    · rw [processPath_stat_ioError h]
      exact ⟨rfl, rfl, by simp⟩
  · intro info hstat hold hopen
    rw [processPath_open_notFound hstat hold hopen]
    exact ⟨rfl, rfl, rfl, mem_insertKey_self _ _⟩
  · rintro info hstat hold (hopen | hopen)
    · rw [processPath_open_permDenied hstat hold hopen]
      exact ⟨rfl, rfl, by simp, mem_insertKey_self _ _⟩
    · rw [processPath_open_ioError hstat hold hopen]
      exact ⟨rfl, rfl, by simp, mem_insertKey_self _ _⟩
  · intro htick
    unfold runTick
    dsimp only
    rw [runSources_eq]
    rw [processSrcs_stat_err ncfg fs srcs ({ st with touched_keys := ([] : List Key) }) htick]
    exact cleanup_untouched_empty _ rfl

/-- Witness for C8 (amended): a permission error at open on a tracked
identity keeps the offset and the touched mark, and a tick over a
filesystem whose stat always fails prunes every stored offset. -/
theorem claim_C8_witness :
    ((processPath ncfgOff srcPlain fsPerm stPerm ("f")).st.offsets = stPerm.offsets ∧
     (processPath ncfgOff srcPlain fsPerm stPerm ("f")).events = [] ∧
     (processPath ncfgOff srcPlain fsPerm stPerm ("f")).errs ≠ [] ∧
     ((1, 2) : Key) ∈ (processPath ncfgOff srcPlain fsPerm stPerm ("f")).st.touched_keys) ∧
    (runTick ncfgOff fsStatPerm [srcPlain] 5 100 stPerm).st.offsets = [] :=
  ⟨(claim_C8_errors ncfgOff srcPlain fsPerm stPerm ("f") 3 [srcPlain] 5 100).2.2.2.1
      ⟨1, 2, 7⟩ rfl (by decide) (Or.inl rfl),
   (claim_C8_errors ncfgOff srcPlain fsStatPerm stPerm ("f") 3 [srcPlain] 5 100).2.2.2.2
      (fun s _ p _ => Or.inl rfl)⟩

/-! ### Quiescent ticks (claim C7) -/

/-- C7's premise for one source: every path its glob matches stats to an
already-tracked identity whose stored offset equals the current size
("no tracked file grows"), and opens to content of exactly that size. -/
def SteadySrc (fs : FS) (base : List (Key × Nat)) (src : SourceConfig) : Prop :=
  ∀ path ∈ fs.glob src.pattern, ∃ info : FileStat, fs.stat path = Except.ok info ∧
    lookupA (info.dev, info.ino) base = some info.size ∧
    ∃ content : List Char, fs.openFile path = Except.ok content ∧
      content.length = info.size

/-- A path whose size equals the stored offset is a no-op apart from
touching the identity and refreshing its path. -/
theorem processPath_steady (ncfg : NotificationConfig) (src : SourceConfig) (fs : FS)
    (st : TrackerState) (path : Path) (info : FileStat) (content : List Char)
    (hstat : fs.stat path = .ok info)
    (hold : lookupA (info.dev, info.ino) st.offsets = some info.size)
    (hopen : fs.openFile path = .ok content)
    (hlen : content.length = info.size) :
    processPath ncfg src fs st path =
      ⟨⟨st.offsets, setA (info.dev, info.ino) path st.key_to_path,
        insertKey (info.dev, info.ino) st.touched_keys⟩, [], [], []⟩ := by
  rw [processPath_read hstat hold hopen]
  have hnlt : ¬ info.size < info.size := lt_irrefl _
  simp only [if_neg hnlt]
  have hdrop : content.drop info.size = [] := List.drop_eq_nil_of_le (by omega)
  rw [hdrop]
  simp only [List.length_nil, Nat.add_zero]
  rw [setA_of_lookupA hold]
  rfl

theorem processPaths_steady (ncfg : NotificationConfig) (src : SourceConfig) (fs : FS)
    (base : List (Key × Nat)) (paths : List Path) :
    ∀ st : TrackerState, st.offsets = base →
      (∀ path ∈ paths, ∃ info : FileStat, fs.stat path = Except.ok info ∧
          lookupA (info.dev, info.ino) base = some info.size ∧
          ∃ content : List Char, fs.openFile path = Except.ok content ∧
            content.length = info.size) →
      ((processPaths ncfg src fs st paths).st.offsets = base ∧
       (processPaths ncfg src fs st paths).events = [] ∧
       (∀ x ∈ st.touched_keys, x ∈ (processPaths ncfg src fs st paths).st.touched_keys) ∧
       (∀ path ∈ paths, ∀ info : FileStat, fs.stat path = Except.ok info →
          (info.dev, info.ino) ∈ (processPaths ncfg src fs st paths).st.touched_keys)) := by
  induction paths with
  | nil =>
    intro st hst _
    refine ⟨hst, rfl, fun x hx => hx, ?_⟩
    intro path hpath
    exact absurd hpath (List.not_mem_nil _)
  | cons path rest ih =>
    intro st hst hready
    obtain ⟨info, hstat, hold, content, hopen, hlen⟩ :=
      hready path (List.mem_cons_self _ _)
    have hold2 : lookupA (info.dev, info.ino) st.offsets = some info.size := by
      rw [hst]
      exact hold
    have hpp := processPath_steady ncfg src fs st path info content hstat hold2 hopen hlen
    have hready2 : ∀ p ∈ rest, ∃ info : FileStat, fs.stat p = Except.ok info ∧
        lookupA (info.dev, info.ino) base = some info.size ∧
        ∃ content : List Char, fs.openFile p = Except.ok content ∧
          content.length = info.size :=
      fun p hp => hready p (List.mem_cons_of_mem _ hp)
    obtain ⟨ho, he, hmono, hcov⟩ :=
      ih (⟨st.offsets, setA (info.dev, info.ino) path st.key_to_path,
          insertKey (info.dev, info.ino) st.touched_keys⟩ : TrackerState) hst hready2
    simp only [processPaths]
    rw [hpp]
    dsimp only
    refine ⟨ho, ?_, ?_, ?_⟩
    · rw [he]
      rfl
    · intro x hx
      exact hmono x (mem_insertKey_of_mem _ hx)
    · intro p hp info2 hstat2
      rcases List.mem_cons.mp hp with rfl | hp2
      · have hinfo : info = info2 := Except.ok.inj (hstat.symm.trans hstat2)
        subst hinfo
        exact hmono _ (mem_insertKey_self _ _)
      · exact hcov p hp2 info2 hstat2

theorem processSrcs_steady (ncfg : NotificationConfig) (fs : FS)
    (base : List (Key × Nat)) (srcs : List SourceConfig) :
    ∀ st : TrackerState, st.offsets = base →
      (∀ src ∈ srcs, SteadySrc fs base src) →
      ((processSrcs ncfg fs st srcs).st.offsets = base ∧
       (processSrcs ncfg fs st srcs).events = [] ∧
       (∀ x ∈ st.touched_keys, x ∈ (processSrcs ncfg fs st srcs).st.touched_keys) ∧
       (∀ src ∈ srcs, ∀ path ∈ fs.glob src.pattern, ∀ info : FileStat,
          fs.stat path = Except.ok info →
          (info.dev, info.ino) ∈ (processSrcs ncfg fs st srcs).st.touched_keys)) := by
  induction srcs with
  | nil =>
    intro st hst _
    refine ⟨hst, rfl, fun x hx => hx, ?_⟩
    intro src hsrc
    exact absurd hsrc (List.not_mem_nil _)
  | cons src rest ih =>
    intro st hst hsteady
    simp only [processSrcs]
    rw [process_source_eq]
    obtain ⟨ho1, he1, hmono1, hcov1⟩ :=
      processPaths_steady ncfg src fs base (fs.glob src.pattern) st hst
        (hsteady src (List.mem_cons_self _ _))
    obtain ⟨ho2, he2, hmono2, hcov2⟩ :=
      ih (processPaths ncfg src fs st (fs.glob src.pattern)).st ho1
        (fun s hs => hsteady s (List.mem_cons_of_mem _ hs))
    refine ⟨ho2, ?_, ?_, ?_⟩
    · rw [he1, he2]
      rfl
    · intro x hx
      exact hmono2 x (hmono1 x hx)
    · intro s hs p hp info hstat
      rcases List.mem_cons.mp hs with rfl | hs2
      · exact hmono2 _ (hcov1 p hp info hstat)
      · exact hcov2 s hs2 p hp info hstat

/-- A tick over a quiescent filesystem emits nothing and preserves the
offsets dict exactly. -/
theorem runTick_steady (ncfg : NotificationConfig) (fs : FS) (srcs : List SourceConfig)
    (u now : Nat) (base : List (Key × Nat))
    (hready : ∀ src ∈ srcs, SteadySrc fs base src)
    (hcover : ∀ k ∈ keysA base, ∃ src ∈ srcs, ∃ path ∈ fs.glob src.pattern,
        ∃ info : FileStat, fs.stat path = Except.ok info ∧ (info.dev, info.ino) = k) :
    ∀ st : TrackerState, st.offsets = base →
      ((runTick ncfg fs srcs u now st).events = [] ∧
       (runTick ncfg fs srcs u now st).st.offsets = base) := by
  intro st hst
  unfold runTick
  dsimp only
  rw [runSources_eq]
  obtain ⟨ho, he, hmono, hcov2⟩ :=
    processSrcs_steady ncfg fs base srcs ({ st with touched_keys := [] }) hst hready
  refine ⟨he, ?_⟩
  have htouch : ∀ k ∈ keysA (processSrcs ncfg fs
        ({ st with touched_keys := ([] : List Key) }) srcs).st.offsets,
      k ∈ (processSrcs ncfg fs ({ st with touched_keys := ([] : List Key) }) srcs).st.touched_keys := by
    intro k hk
    rw [ho] at hk
    obtain ⟨src, hsrc, path, hpath, info, hstat, hkey⟩ := hcover k hk
    have hmem := hcov2 src hsrc path hpath info hstat
    rwa [hkey] at hmem
  rw [cleanup_offsets_of_touched _ htouch]
  exact ho

/-- C7: two consecutive ticks over a filesystem in which no tracked file
grows (every tracked identity's size equals its stored offset, every
tracked identity is still matched by some source, and every matched path is
such a tracked file) emit no events and leave the offsets dict unchanged. -/
theorem claim_C7_idempotent (ncfg : NotificationConfig) (fs : FS)
    (srcs : List SourceConfig) (u now : Nat) (st : TrackerState)
    (hready : ∀ src ∈ srcs, SteadySrc fs st.offsets src)
    (hcover : ∀ k ∈ keysA st.offsets, ∃ src ∈ srcs, ∃ path ∈ fs.glob src.pattern,
        ∃ info : FileStat, fs.stat path = Except.ok info ∧ (info.dev, info.ino) = k) :
    ((runTick ncfg fs srcs u now st).events = [] ∧
     (runTick ncfg fs srcs u now st).st.offsets = st.offsets ∧
     (runTick ncfg fs srcs u now (runTick ncfg fs srcs u now st).st).events = [] ∧
     (runTick ncfg fs srcs u now (runTick ncfg fs srcs u now st).st).st.offsets
        = st.offsets) := by
  have h1 := runTick_steady ncfg fs srcs u now st.offsets hready hcover st rfl
  have h2 := runTick_steady ncfg fs srcs u now st.offsets hready hcover
      (runTick ncfg fs srcs u now st).st h1.2
  exact ⟨h1.1, h1.2, h2.1, h2.2⟩

/-- Identity `(1, 2)` tracked at offset 5 — fully caught up with `fsHello`. -/
def stSteady : TrackerState := ⟨[((1, 2), 5)], [((1, 2), "f")], []⟩

/-- Witness for C7 on the caught-up `hello` fixture. -/
theorem claim_C7_witness :
    (runTick ncfgOff fsHello [srcPlain] 5 100 stSteady).events = [] ∧
    (runTick ncfgOff fsHello [srcPlain] 5 100 stSteady).st.offsets = stSteady.offsets ∧
    (runTick ncfgOff fsHello [srcPlain] 5 100
        (runTick ncfgOff fsHello [srcPlain] 5 100 stSteady).st).events = [] ∧
    (runTick ncfgOff fsHello [srcPlain] 5 100
        (runTick ncfgOff fsHello [srcPlain] 5 100 stSteady).st).st.offsets
      = stSteady.offsets :=
  claim_C7_idempotent ncfgOff fsHello [srcPlain] 5 100 stSteady
    (by
      intro src hsrc
      have hs : src = srcPlain := by
        simpa using hsrc
      subst hs
      intro path hpath
      have hp : path = "f" := by
        simpa [fsHello, srcPlain] using hpath
      subst hp
      exact ⟨⟨1, 2, 5⟩, rfl, by decide, ("hello").toList, rfl, by decide⟩)
    (by
      intro k hk
      have hks : k = ((1, 2) : Key) := by
        simpa [stSteady, keysA] using hk
      subst hks
      exact ⟨srcPlain, by simp, ("f"), by decide, ⟨1, 2, 5⟩, rfl, rfl⟩)

end SysLog
